import Mathlib

/-!
Shallow embedding of the starkSnipe repository (Rust) in Lean 4.

The embedding follows the source files under `src/`:
- `src/utils/event_parser.rs` and `src/utils/call.rs`: the field-element
  codec (u128 extraction from big-endian field bytes, 256-bit word
  combination, decimal rendering, cairo short-string parsing with its
  validation wrapper) and the flat multicall result decoder.
- `src/utils/types/Fraction.rs`: the arbitrary-precision fraction engine
  (add, sub, mul, div, formatted-string rendering, significant digits).
- `src/utils/liquidity.rs` and `src/constant/constants.rs`: `get_price`,
  `parse_liquidity_params` and the quote-token table.
- `src/provider/mod.rs` and `src/main.rs`: the two-phase event monitor
  (catch-up page step, live-poll step) and the launch-event pipeline
  (watermark skip check, background retry store).

Machine integers are modelled as `Nat` (field elements, unsigned words)
or `Int` (the `BigInt` fraction components), with `% 2^128` made explicit
where the Rust code truncates to a 128-bit word.  Rust panics
(out-of-bounds indexing, `Option::unwrap` on `None`, `to_biguint` on a
negative value) are modelled as `Option.none` or an explicit `panic`
error constructor; fallible Rust functions returning `Result` are
modelled with `Except`.
-/

namespace StarkSnipe

/-! ## Field-element codec (`src/utils/event_parser.rs`, `src/utils/call.rs`) -/

/-- Model of `u128::from_field_bytes` (event_parser.rs lines 34-41, call.rs lines
71-78): takes the last sixteen big-endian bytes of the 32-byte field
element, i.e. the value modulo `2^128`. -/
def u128FromFieldBytes (f : Nat) : Nat := f % 2 ^ 128

/-- Model of `U256::from_words(low, high)` (starknet-core): the 256-bit value
`low + 2^128 * high` from two 128-bit words. -/
def u256FromWords (low high : Nat) : Nat := low + 2 ^ 128 * high

/-- Model of `u256_to_decimal_str` (event_parser.rs lines 43-45): decimal rendering
of the 256-bit value via the `Display` instance. -/
def u256ToDecimalStr (v : Nat) : String := Nat.repr v

/-- Encoding a 256-bit integer into the field element carrying its low
128-bit half (the wire format consumed by the decoder). -/
def encodeU256Low (n : Nat) : Nat := n % 2 ^ 128

/-- Encoding a 256-bit integer into the field element carrying its high
128-bit half. -/
def encodeU256High (n : Nat) : Nat := n / 2 ^ 128

/-- The decode path used for total supply and team allocation
(call.rs lines 218-228): extract the low 128 bits of each field element,
combine as `low + 2^128 * high`, render in decimal. -/
def decodeU256 (lowFelt highFelt : Nat) : String :=
  u256ToDecimalStr (u256FromWords (u128FromFieldBytes lowFelt) (u128FromFieldBytes highFelt))

/-! ## Fraction engine (`src/utils/types/Fraction.rs`) -/

/-- Model of `FractionError` (Fraction.rs lines 10-18). -/
inductive FractionError where
  | InvalidFraction : String → FractionError
  | DivisionByZero : FractionError
  | ParseError : String → FractionError
  deriving DecidableEq, Repr

/-- Model of `Rounding` (Fraction.rs lines 21-26). -/
inductive Rounding where
  | RoundDown
  | RoundHalfUp
  | RoundUp
  deriving DecidableEq, Repr

/-- Model of `Fraction` (Fraction.rs lines 29-33): numerator and denominator as
arbitrary-precision signed integers. -/
structure Fraction where
  numerator : Int
  denominator : Int
  deriving DecidableEq, Repr

/-- Model of `Add for Fraction` (Fraction.rs lines 197-213): numerator-only when
denominators coincide, otherwise cross-multiply. -/
def Fraction.add (a b : Fraction) : Fraction :=
  if a.denominator = b.denominator then
    ⟨a.numerator + b.numerator, a.denominator⟩
  else
    ⟨a.numerator * b.denominator + b.numerator * a.denominator,
     a.denominator * b.denominator⟩

/-- Model of `Sub for Fraction` (Fraction.rs lines 215-231). -/
def Fraction.sub (a b : Fraction) : Fraction :=
  if a.denominator = b.denominator then
    ⟨a.numerator - b.numerator, a.denominator⟩
  else
    ⟨a.numerator * b.denominator - b.numerator * a.denominator,
     a.denominator * b.denominator⟩

/-- Model of `Mul for Fraction` (Fraction.rs lines 233-242). -/
def Fraction.mul (a b : Fraction) : Fraction :=
  ⟨a.numerator * b.numerator, a.denominator * b.denominator⟩

/-- Model of `Div for Fraction` (Fraction.rs lines 244-257): fails with
`DivisionByZero` when the divisor's *numerator* is zero, otherwise
cross-multiplies. -/
def Fraction.div (a b : Fraction) : Except FractionError Fraction :=
  if b.numerator = 0 then .error .DivisionByZero
  else .ok ⟨a.numerator * b.denominator, a.denominator * b.numerator⟩

/-- Model of `PartialEq for Fraction` (Fraction.rs lines 260-264):
cross-multiplication equality. -/
def Fraction.equiv (a b : Fraction) : Prop :=
  a.numerator * b.denominator = b.numerator * a.denominator

instance (a b : Fraction) : Decidable (Fraction.equiv a b) := by
  unfold Fraction.equiv; infer_instance

end StarkSnipe

namespace StarkSnipe

/-! ### Decimal formatting (`to_formatted_string`, `to_significant_digits`) -/

/-- Trailing-character trim (`trim_end_matches`). -/
def trimTrailing (c : Char) (cs : List Char) : List Char :=
  ((cs.reverse).dropWhile (· = c)).reverse

/-- Thousands separators (Fraction.rs lines 126-137): a comma before
position `i > 0` whenever `(len - i) % 3 = 0`. -/
def addThousandsSeparators (cs : List Char) : List Char :=
  (cs.enum.map (fun p =>
    if 0 < p.1 ∧ (cs.length - p.1) % 3 = 0 then [',', p.2] else [p.2])).flatten

/-- Model of `to_formatted_string` (Fraction.rs lines 83-144).  Scales by `10^18`,
divides with truncation (`BigInt::div_rem`), rounds half-up on the last
digit, pads, places the decimal point 18 digits from the end, strips
trailing fractional zeros and inserts thousands separators.  `none`
models a panic: `div_rem` by zero, or `to_biguint().unwrap()` on a
negative remainder or denominator (lines 99-100). -/
def toFormattedString (fr : Fraction) : Option String :=
  if fr.numerator = 0 then some "0"
  else if fr.denominator = 0 then none
  else
    let scaled : Int := fr.numerator * (10 : Int) ^ 18
    let q : Int := Int.tdiv scaled fr.denominator
    let r : Int := Int.tmod scaled fr.denominator
    if r < 0 ∨ fr.denominator < 0 then none
    else
      let rounded : Int := if fr.denominator ≤ 2 * r then q + 1 else q
      let strValue : List Char := (Int.repr rounded).toList
      let padded : List Char :=
        List.replicate (19 - strValue.length) '0' ++ strValue
      let decimalPos : Nat := padded.length - 18
      let intPart : List Char := padded.take decimalPos
      let fracPart : List Char := padded.drop decimalPos
      let formatted : List Char :=
        if fracPart.all (· = '0') then intPart
        else intPart ++ '.' :: trimTrailing '0' fracPart
      let intEnd : Nat := (formatted.findIdx? (· = '.')).getD formatted.length
      some (String.mk
        (addThousandsSeparators (formatted.take intEnd) ++ formatted.drop intEnd))

/-- One step of the character scan in `to_significant_digits`
(Fraction.rs lines 163-180); state is `(count, result, seen_decimal)`. -/
def sigDigitsStep (digits : Nat) (st : Nat × List Char × Bool) (c : Char) :
    Nat × List Char × Bool :=
  let (count, result, seenDecimal) := st
  if c = '.' then (count, result ++ ['.'], true)
  else if c = ',' then (count, result ++ [','], seenDecimal)
  else if '0' ≤ c ∧ c ≤ '9' then
    if count < digits ∨ ¬ seenDecimal then
      (if c ≠ '0' ∨ 0 < count then count + 1 else count,
       result ++ [c], seenDecimal)
    else (count, result, seenDecimal)
  else (count, result, seenDecimal)

/-- Model of `to_significant_digits` (Fraction.rs lines 146-193): renders via
`to_formatted_string`, short-circuits on `"0"`, scans characters keeping
digits while `count < digits || !seen_decimal`, and for `RoundDown`
strips trailing zeros (when a decimal point was seen) and a trailing
point. -/
def toSignificantDigits (fr : Fraction) (digits : Nat) (rounding : Rounding) :
    Option String :=
  match toFormattedString fr with
  | none => none
  | some formatted =>
    if formatted = "0" then some formatted
    else
      let st := formatted.toList.foldl (sigDigitsStep digits) (0, [], false)
      let result := st.2.1
      let seenDecimal := st.2.2
      let result :=
        if rounding = Rounding.RoundDown then
          let r1 := if seenDecimal then trimTrailing '0' result else result
          if r1.getLast? = some '.' then r1.dropLast else r1
        else result
      some (String.mk result)

/-! ## Short-string parsing (`src/utils/event_parser.rs` lines 47-57,
starknet-rs `parse_cairo_short_string`) -/

/-- Model of `ParseCairoShortStringError` (starknet-rs): the error cases of the
underlying short-string parse. -/
inductive ShortStringErr where
  | valueOutOfRange
  | unexpectedNullTerminator
  | nonAsciiCharacter
  deriving DecidableEq, Repr

/-- Model of `Felt::to_bytes_be`: the 32 big-endian bytes of a field element. -/
def feltBytes (f : Nat) : List Nat :=
  (List.range 32).map (fun i => f / 2 ^ (8 * (31 - i)) % 256)

/-- The byte loop of `parse_cairo_short_string`: a zero byte is skipped
while the buffer is empty and rejected afterwards, an ASCII byte
(`< 128`) is appended, anything else is rejected. -/
def shortStringLoop : List Nat → List Char → Except ShortStringErr (List Char)
  | [], acc => .ok acc
  | b :: rest, acc =>
    if b = 0 then
      if acc = [] then shortStringLoop rest acc
      else .error .unexpectedNullTerminator
    else if b ≤ 127 then shortStringLoop rest (acc ++ [Char.ofNat b])
    else .error .nonAsciiCharacter

/-- starknet-rs `parse_cairo_short_string`: zero decodes to the empty
string, a nonzero top byte is out of range, otherwise the bytes are
scanned by `shortStringLoop`. -/
def parseCairoShortString (f : Nat) : Except ShortStringErr String :=
  if f = 0 then .ok ""
  else
    let bytes := feltBytes f
    if bytes.headD 0 ≠ 0 then .error .valueOutOfRange
    else (shortStringLoop bytes []).map String.mk

/-- Rust `char::is_ascii_graphic`: `'!'..='~'`. -/
def isAsciiGraphic (c : Char) : Bool := 0x21 ≤ c.toNat ∧ c.toNat ≤ 0x7e

/-- Rust `char::is_ascii_whitespace`: space, tab, newline, form feed,
carriage return. -/
def isAsciiWhitespace (c : Char) : Bool :=
  c.toNat = 0x20 ∨ c.toNat = 0x09 ∨ c.toNat = 0x0a ∨ c.toNat = 0x0c ∨ c.toNat = 0x0d

/-- Model of `parse_and_validate_short_string` (event_parser.rs lines 47-57):
propagates the parse error via `?`; on success, falls back to the
felt's decimal `to_string()` when any character is neither graphic nor
whitespace ASCII. -/
def parseAndValidateShortString (f : Nat) : Except ShortStringErr String :=
  match parseCairoShortString f with
  | .error e => .error e
  | .ok s =>
    if s.toList.all (fun c => isAsciiGraphic c || isAsciiWhitespace c) = true then .ok s
    else .ok (Nat.repr f)

/-! ## Multicall result decoding (`src/utils/call.rs`) -/

/-- The name response line (call.rs lines 200-204): parse failure is
caught and mapped to the literal `<invalid>` marker. -/
def nameResponse (f : Nat) : String :=
  match parseCairoShortString f with
  | .ok name => "Name: " ++ name
  | .error _ => "Name: <invalid>"

/-- The symbol response line (call.rs lines 207-213): validation failure
is caught and mapped to the literal `<invalid>` marker. -/
def symbolResponse (f : Nat) : String :=
  match parseAndValidateShortString f with
  | .ok s => "Symbol: " ++ s
  | .error _ => "Symbol: <invalid>"

/-- A hexadecimal digit character. -/
def hexDigit (n : Nat) : Char :=
  if n < 10 then Char.ofNat (48 + n) else Char.ofNat (87 + n)

/-- Model of `hex::encode` of the 32 big-endian bytes of a field element. -/
def hexEncode32 (f : Nat) : String :=
  String.mk (((feltBytes f).map (fun b => [hexDigit (b / 16), hexDigit (b % 16)])).flatten)

/-- starknet-rs `ADDR_BOUND`: contract addresses live below
`2^251 - 256`. -/
def ADDR_BOUND : Nat := 2 ^ 251 - 256

/-- starknet-rs `normalize_address` followed by `Display` (decimal). -/
def normalizeAddressStr (f : Nat) : String := Nat.repr (f % ADDR_BOUND)

/-- The u256 decode of two optional result words (call.rs lines 218-227
and 243-252): both words present combine low 128 bits of each, any
missing word falls back silently to `"0"`. -/
def u256Response (lo hi : Option Nat) : String :=
  match lo, hi with
  | some l, some h => decodeU256 l h
  | _, _ => "0"

/-- Model of `parse_call_result` (call.rs lines 191-257).  The decoder reads fixed
indices of the flat result buffer: `[1]` (unused total length), `[5]`
name, `[7]` symbol, `[9]`/`[10]` total supply (safe access, `"0"`
default), `[12]` owner, `[14]` launched block, `[16]`/`[17]` team
allocation (safe access).  Direct indexing past the end of the buffer
panics in Rust; that is modelled by `none`. -/
def parseCallResult (cr : List Nat) : Option (List String) := do
  let _totalLength ← cr[1]?
  let nameFelt ← cr[5]?
  let symbolFelt ← cr[7]?
  let totalSupplyLine := "Total Supply: " ++ u256Response cr[9]? cr[10]?
  let ownerFelt ← cr[12]?
  let launchedFelt ← cr[14]?
  let teamLine := "Team Allocation: " ++ u256Response cr[16]? cr[17]?
  some [nameResponse nameFelt,
        symbolResponse symbolFelt,
        totalSupplyLine,
        "Owner: " ++ normalizeAddressStr ownerFelt,
        "Launched Block Number: 0x" ++ hexEncode32 launchedFelt,
        teamLine]

/-- Model of `EkuboPoolParameters` (call.rs lines 53-65). -/
structure EkuboPoolParameters where
  fee : Nat
  tickSpacing : Nat
  startingPriceMag : Nat
  startingPriceSign : Bool
  bound : Nat
  deriving DecidableEq, Repr

/-- Model of `parse_ekubo_pool_parameters` (call.rs lines 277-300): consumes five
words at the cursor, returning the advanced cursor.  Out-of-bounds
indexing panics (`none`), as does `to_usize().unwrap()` when the sign
word exceeds `usize::MAX = 2^64 - 1`. -/
def parseEkuboPoolParameters (cr : List Nat) (i : Nat) :
    Option (EkuboPoolParameters × Nat) := do
  let fee ← cr[i]?
  let tickSpacing ← cr[i+1]?
  let mag ← cr[i+2]?
  let signFelt ← cr[i+3]?
  if signFelt < 2 ^ 64 then
    let bound ← cr[i+4]?
    some (⟨fee, tickSpacing, mag, signFelt = 1, bound⟩, i + 5)
  else none

/-! ## Pricing and liquidity (`src/utils/liquidity.rs`,
`src/constant/constants.rs`) -/

/-- Model of `DECIMALS` (constants.rs line 137). -/
def DECIMALS : Nat := 18

/-- Modelled from the spec: `parse_u256_from_felts` is imported by
liquidity.rs from the call module but is absent from the sources; §4.1
describes it as combining two field elements' low 128 bits each into a
256-bit unsigned integer rendered in decimal.  The decimal rendering and
the immediate `BigUint::from_str` re-parse at the call site are fused
into the numeric value. -/
def parseU256FromFelts (low high : Nat) : Nat :=
  u256FromWords (u128FromFieldBytes low) (u128FromFieldBytes high)

/-- Error outcomes of `get_price` visible in the model. -/
inductive GetPriceErr where
  | contractCall : String → GetPriceErr
  | fractionErr : FractionError → GetPriceErr
  deriving Repr

/-- Model of `get_price` (liquidity.rs lines 79-122), with the reserves call
result supplied as an oracle input.  An empty pair returns
`Fraction(10^DECIMALS, 1)`; otherwise reserve0 is decoded from result
words 0 and 1, reserve1 from words 2 and 3, and the result is
`Fraction(reserve1, reserve0) * Fraction(10^12, 1)`.
`Fraction::new(reserve1, Some(reserve0))` fails when reserve0 is zero. -/
def getPrice (pair : String) (callResult : List Nat) :
    Except GetPriceErr Fraction :=
  if pair = "" then .ok ⟨(10 : Int) ^ DECIMALS, 1⟩
  else
    match callResult[0]?, callResult[1]? with
    | some l0, some h0 =>
      match callResult[2]?, callResult[3]? with
      | some l1, some h1 =>
        let reserve0 : Int := parseU256FromFelts l0 h0
        let reserve1 : Int := parseU256FromFelts l1 h1
        if reserve0 = 0 then .error (.fractionErr .DivisionByZero)
        else .ok (Fraction.mul ⟨reserve1, reserve0⟩ ⟨(10 : Int) ^ 12, 1⟩)
      | _, _ => .error (.contractCall "Failed to decode reserve1")
    | _, _ => .error (.contractCall "Failed to decode reserve0")

/-- Model of `Token` (constants.rs lines 79-85), restricted to the fields the
embedded functions read. -/
structure Token where
  address : String
  decimals : Nat
  usdcPair : String
  deriving DecidableEq, Repr

/-- Model of `ETHER` (constants.rs lines 88-94). -/
def ETHER : Token :=
  ⟨"0x49d36570d4e46f48e99674bd3fcc84644ddd6b96f7c741b1562b82f9e004dc7", 18,
   "0x04d0390b777b424e43839cd1e744799f3de6c176c7e32c1812a41dbd9c19db6a"⟩

/-- Model of `USDC` (constants.rs lines 96-102). -/
def USDC : Token :=
  ⟨"0x53c91253bc9682c04929ca02ed00b3e423f6710d2ee7e0d5ebb06f3ecf368a8", 6, ""⟩

/-- Model of `STRK` (constants.rs lines 104-110). -/
def STRK : Token :=
  ⟨"0x4718f5a0fc34cc1af16a1cdee98ffb20c31f5cd61d6ab07201858f4287c938d", 18,
   "0x5726725e9507c3586cc0516449e2c74d9b201ab2747752bb0251aaa263c9a26"⟩

/-- Model of `USDT` (constants.rs lines 112-118). -/
def USDT : Token :=
  ⟨"0x68f5c6a61780768455de69077e07e89787839bf8166decfbf92b645209c0fb8", 6,
   "0x5801bdad32f343035fb242e98d1e9371ae85bc1543962fedea16c59b35bd19b"⟩

/-- Model of `QUOTE_TOKENS` (constants.rs lines 120-129): keyed by
`get_checksum_address` (the identity, line 131-133); note the source
inserts the `USDC` token under the STRK address and the `STRK` token
under the USDC address. -/
def QUOTE_TOKENS : List (String × Token) :=
  [(ETHER.address, ETHER), (STRK.address, USDC), (USDC.address, STRK),
   (USDT.address, USDT)]

/-- Model of `QUOTE_TOKENS.get(&quote_token)`. -/
def quoteTokenLookup (addr : String) : Option Token :=
  (QUOTE_TOKENS.find? (fun p => p.1 = addr)).map (·.2)

/-- Model of `LiquidityParams` (liquidity.rs lines 25-29). -/
structure LiquidityParams where
  isQuoteTokenSafe : Bool
  parsedStartingMcap : String
  deriving DecidableEq, Repr

/-- Error outcomes of `parse_liquidity_params` in the model: `panic`
covers `Option::unwrap` on `None` and panics inside the fraction
formatting; `err` covers the `?`-propagated errors. -/
inductive LiqErr where
  | panic
  | err
  deriving DecidableEq, Repr

/-- Model of `parse_liquidity_params` (liquidity.rs lines 129-176), with the two
effectful inputs passed as oracles: `quotePriceAtLaunch` is the fraction
produced by `get_price` on the quote token's USDC pair, and `price` is
`BigUint::from_f64` of the floating-point `get_initial_price` result.
The source looks up `QUOTE_TOKENS`, records `is_some` as
`is_quote_token_safe`, and then calls
`quote_token_infos.unwrap().usdc_pair` (line 137) *before* branching on
the flag, so a missing quote token panics.  On the recognized path the
starting market cap is
`(price * 10^DECIMALS) * quote_price * supply / (10^DECIMALS * 10^48)`
reduced by `to_significant_digits(0, RoundDown)`. -/
def parseLiquidityParams (quoteToken : String) (totalSupply : Nat)
    (quotePriceAtLaunch : Fraction) (price : Nat) :
    Except LiqErr LiquidityParams :=
  let infos := quoteTokenLookup quoteToken
  let isSafe := infos.isSome
  match infos with
  | none => .error .panic
  | some _ =>
    let supply : Fraction := ⟨(totalSupply : Int), 1⟩
    let decimals : Fraction :=
      Fraction.mul ⟨(10 : Int) ^ DECIMALS, 1⟩ ⟨(10 : Int) ^ 48, 1⟩
    let priceFraction : Fraction :=
      Fraction.mul ⟨(price : Int), 1⟩ ⟨(10 : Int) ^ DECIMALS, 1⟩
    match Fraction.div
        (Fraction.mul (Fraction.mul priceFraction quotePriceAtLaunch) supply)
        decimals with
    | .error _ => .error .err
    | .ok mcap =>
      match toSignificantDigits mcap 0 Rounding.RoundDown with
      | none => .error .panic
      | some s => .ok ⟨isSafe, s⟩

/-! ## Chain event monitor (`src/provider/mod.rs`) and launch pipeline
(`src/main.rs`).  Events are represented by their block numbers; a page
carries the events in delivery order plus an optional continuation
token. -/

/-- A page returned by `get_events`. -/
structure EventsPage where
  events : List Nat
  continuationToken : Option String
  deriving DecidableEq, Repr

/-- Where the catch-up loop goes after one page. -/
inductive CatchUpNext where
  | toLivePoll (watermark : Nat)
  | nextPage (watermark : Nat) (token : String)
  deriving DecidableEq, Repr

/-- One iteration of the catch-up loop (provider/mod.rs lines 88-121):
an empty page with no continuation token breaks to live polling; a
populated page sets `last_processed_block` to its last event's block and
invokes the callback with the page's events in order; the returned
continuation token is passed to the next request, its absence breaking
to live polling.  The second component lists the callback invocations
made during the step. -/
def catchUpStep (wm : Nat) (page : EventsPage) : CatchUpNext × List (List Nat) :=
  if page.events = [] ∧ page.continuationToken = none then
    (.toLivePoll wm, [])
  else
    let wm' := (page.events.getLast?).getD wm
    let calls := if page.events = [] then [] else [page.events]
    match page.continuationToken with
    | none => (.toLivePoll wm', calls)
    | some t => (.nextPage wm' t, calls)

/-- One tick of the live-poll loop (provider/mod.rs lines 126-148): the
request covers blocks from `last_processed_block + 1`; a nonempty result
advances the watermark to the last event's block and invokes the
callback. -/
def livePollStep (wm : Nat) (events : List Nat) : Nat × List (List Nat) :=
  if events = [] then (wm, [])
  else ((events.getLast?).getD wm, [events])

/-- Outcome of `process_launch_event` for one event. -/
inductive ProcessOutcome where
  | skipped
  | processed
  | failed
  deriving DecidableEq, Repr

/-- Model of `process_launch_event` (main.rs lines 175-206): reads
`LAST_PROCESSED_BLOCK`, returns early (no aggregation call) when the
event's block is at or below it; otherwise runs the aggregate call and
stores the block on success, leaving the watermark unchanged on failure
(a detached retry is spawned instead). -/
def processLaunchEvent (wm : Nat) (block : Nat) (aggregateOk : Bool) :
    Nat × ProcessOutcome :=
  if block ≤ wm then (wm, .skipped)
  else if aggregateOk then (block, .processed)
  else (wm, .failed)

/-- The store performed by `retry_failed_call` (main.rs lines 218-227)
when a retry attempt eventually succeeds: the block number is stored
unconditionally, without comparing against the current watermark. -/
def retryStoreOnSuccess (_wm : Nat) (block : Nat) : Nat := block

/-- The watermark carried by a catch-up outcome. -/
def CatchUpNext.watermark : CatchUpNext → Nat
  | .toLivePoll w => w
  | .nextPage w _ => w

/-- The watermark after the catch-up loop folds over a sequence of
fetched pages. -/
def runCatchUpWm (wm : Nat) (pages : List EventsPage) : Nat :=
  pages.foldl (fun w p => (catchUpStep w p).1.watermark) wm

/-- An ordered run: every page's event blocks lie at or above the
watermark current when that page is processed. -/
def orderedRun : Nat → List EventsPage → Bool
  | _, [] => true
  | wm, p :: rest =>
    p.events.all (fun b => decide (wm ≤ b)) &&
      orderedRun (catchUpStep wm p).1.watermark rest

end StarkSnipe

namespace StarkSnipe

/-! ## Theorems -/

/-- C1: for every valid 256-bit unsigned integer, encoding into low and
high 128-bit field-element halves and decoding back (combining the low
128 bits of each half as `low + 2^128 * high`, rendered in decimal)
yields the decimal representation exactly; decoding the pair with low
word 0 and high word 1 yields the decimal string of `2^128`. -/
theorem u256_roundtrip :
    (∀ n : Nat, n < 2 ^ 256 →
      decodeU256 (encodeU256Low n) (encodeU256High n) = Nat.repr n)
    ∧ decodeU256 0 1 = "340282366920938463463374607431768211456" := by
  constructor
  · intro n hn
    unfold decodeU256 u256ToDecimalStr u256FromWords u128FromFieldBytes
      encodeU256Low encodeU256High
    congr 1
    have h1 : n % 2 ^ 128 % 2 ^ 128 = n % 2 ^ 128 := Nat.mod_mod_of_dvd n dvd_rfl
    have hsplit : (2 : Nat) ^ 256 = 2 ^ 128 * 2 ^ 128 := by
      rw [← pow_add]
    have h2 : n / 2 ^ 128 < 2 ^ 128 := by
      apply Nat.div_lt_of_lt_mul
      rw [← hsplit]; exact hn
    rw [h1, Nat.mod_eq_of_lt h2, Nat.mod_add_div]
  · rfl

/-- Witness for `u256_roundtrip` at `n = 2^128`. -/
theorem u256_roundtrip_witness :
    (2 ^ 128 : Nat) < 2 ^ 256 ∧
      decodeU256 (encodeU256Low (2 ^ 128)) (encodeU256High (2 ^ 128)) =
        Nat.repr (2 ^ 128) :=
  ⟨by norm_num, u256_roundtrip.1 (2 ^ 128) (by norm_num)⟩

/-- C8: for fractions with non-zero numerators and denominators,
dividing by `b` then multiplying by `b` returns a fraction cross-multiplication
equal to `a`, and `(a + b) - b` is likewise equal to `a`. -/
theorem fraction_div_mul_and_add_sub_roundtrip :
    ∀ a b : Fraction, a.numerator ≠ 0 → b.numerator ≠ 0 →
      a.denominator ≠ 0 → b.denominator ≠ 0 →
      (∃ q, Fraction.div a b = .ok q ∧ Fraction.equiv (Fraction.mul q b) a)
      ∧ Fraction.equiv (Fraction.sub (Fraction.add a b) b) a := by
  intro a b _ hbn _ hbd
  constructor
  · refine ⟨⟨a.numerator * b.denominator, a.denominator * b.numerator⟩,
      by simp [Fraction.div, hbn], ?_⟩
    unfold Fraction.mul Fraction.equiv
    ring
  · by_cases h1 : a.denominator = b.denominator
    · have hadd : Fraction.add a b = ⟨a.numerator + b.numerator, a.denominator⟩ := by
        simp [Fraction.add, h1]
      have hsub : Fraction.sub ⟨a.numerator + b.numerator, a.denominator⟩ b =
          ⟨a.numerator + b.numerator - b.numerator, a.denominator⟩ := by
        simp [Fraction.sub, h1]
      rw [hadd, hsub]
      unfold Fraction.equiv
      ring
    · have hadd : Fraction.add a b =
          ⟨a.numerator * b.denominator + b.numerator * a.denominator,
           a.denominator * b.denominator⟩ := by
        simp [Fraction.add, h1]
      rw [hadd]
      by_cases h2 : a.denominator * b.denominator = b.denominator
      · have had : a.denominator = 1 := by
          have h2' : a.denominator * b.denominator = 1 * b.denominator := by
            rw [one_mul]; exact h2
          exact mul_right_cancel₀ hbd h2'
        have hsub : Fraction.sub
            ⟨a.numerator * b.denominator + b.numerator * a.denominator,
             a.denominator * b.denominator⟩ b =
            ⟨a.numerator * b.denominator + b.numerator * a.denominator - b.numerator,
             a.denominator * b.denominator⟩ := by
          simp [Fraction.sub, h2]
        rw [hsub]
        unfold Fraction.equiv
        rw [had]
        ring
      · have hsub : Fraction.sub
            ⟨a.numerator * b.denominator + b.numerator * a.denominator,
             a.denominator * b.denominator⟩ b =
            ⟨(a.numerator * b.denominator + b.numerator * a.denominator) *
               b.denominator - b.numerator * (a.denominator * b.denominator),
             a.denominator * b.denominator * b.denominator⟩ := by
          simp [Fraction.sub, h2]
        rw [hsub]
        unfold Fraction.equiv
        ring

/-- Witness for `fraction_div_mul_and_add_sub_roundtrip` at
`a = 1/2`, `b = 3/4`. -/
theorem fraction_div_mul_and_add_sub_roundtrip_witness :
    (∃ q, Fraction.div ⟨1, 2⟩ ⟨3, 4⟩ = .ok q ∧
        Fraction.equiv (Fraction.mul q ⟨3, 4⟩) ⟨1, 2⟩)
    ∧ Fraction.equiv (Fraction.sub (Fraction.add ⟨1, 2⟩ ⟨3, 4⟩) ⟨3, 4⟩) ⟨1, 2⟩ :=
  fraction_div_mul_and_add_sub_roundtrip ⟨1, 2⟩ ⟨3, 4⟩
    (by decide) (by decide) (by decide) (by decide)

/-- C9: fraction division fails with `DivisionByZero` exactly when the
divisor's numerator is zero (the divisor's denominator is not checked),
and otherwise returns the cross-multiplied fraction
`(a.numerator * b.denominator) / (a.denominator * b.numerator)`. -/
theorem fraction_div_zero_check :
    ∀ a b : Fraction,
      (Fraction.div a b = .error .DivisionByZero ↔ b.numerator = 0)
      ∧ (b.numerator ≠ 0 →
          Fraction.div a b =
            .ok ⟨a.numerator * b.denominator, a.denominator * b.numerator⟩) := by
  intro a b
  refine ⟨⟨fun h => ?_, fun h => by simp [Fraction.div, h]⟩,
    fun h => by simp [Fraction.div, h]⟩
  by_contra hn
  simp [Fraction.div, hn] at h

/-- Witness for `fraction_div_zero_check`: a divisor with denominator 0
but numerator 3 succeeds (only the numerator is checked). -/
theorem fraction_div_zero_check_witness :
    Fraction.div ⟨1, 2⟩ ⟨3, 0⟩ = .ok ⟨1 * 0, 2 * 3⟩ :=
  (fraction_div_zero_check ⟨1, 2⟩ ⟨3, 0⟩).2 (by decide)

/-- C10: `Fraction(12345, 100).to_significant_digits(0, RoundDown)`
yields `"123"`, and `Fraction(0, 1)` yields `"0"` for every digit count
and rounding mode. -/
theorem to_significant_digits_cases :
    toSignificantDigits ⟨12345, 100⟩ 0 Rounding.RoundDown = some "123"
    ∧ ∀ (digits : Nat) (rounding : Rounding),
        toSignificantDigits ⟨0, 1⟩ digits rounding = some "0" :=
  ⟨by decide, fun _ _ => rfl⟩

/-- C2 counterexample: with an empty pair string, `get_price` returns
`Fraction(10^18, 1)`, which is not cross-multiplication equal to the
unit fraction `1/1` the claim states. -/
theorem get_price_empty_pair_not_unit :
    getPrice "" [] = .ok ⟨(10 : Int) ^ 18, 1⟩
    ∧ ¬ Fraction.equiv ⟨(10 : Int) ^ 18, 1⟩ ⟨1, 1⟩ :=
  ⟨rfl, by decide⟩

/-- C2 amended: with an empty pair string `get_price` returns
`Fraction(10^DECIMALS, 1) = 10^18/1`; otherwise it decodes reserve0 from
the first two result words, reserve1 from the next two, and returns
`Fraction(reserve1, reserve0) * Fraction(10^12, 1)` (reserve0 must be
non-zero, else the fraction constructor fails). -/
theorem get_price_spec :
    ∀ (pair : String) (l0 h0 l1 h1 : Nat) (rest : List Nat),
      getPrice "" rest = .ok ⟨(10 : Int) ^ DECIMALS, 1⟩
      ∧ (pair ≠ "" → parseU256FromFelts l0 h0 ≠ 0 →
          getPrice pair [l0, h0, l1, h1] =
            .ok (Fraction.mul ⟨(parseU256FromFelts l1 h1 : Int),
                               (parseU256FromFelts l0 h0 : Int)⟩
                              ⟨(10 : Int) ^ 12, 1⟩)) := by
  intro pair l0 h0 l1 h1 rest
  refine ⟨rfl, fun hp hr => ?_⟩
  simp [getPrice, hp, hr]

/-- Witness for `get_price_spec` at pair `"0xabc"` and the reserve words
`(1, 0)` and `(2, 0)`. -/
theorem get_price_spec_witness :
    getPrice "" [] = .ok ⟨(10 : Int) ^ DECIMALS, 1⟩
    ∧ getPrice "0xabc" [1, 0, 2, 0] =
        .ok (Fraction.mul ⟨(parseU256FromFelts 2 0 : Int),
                           (parseU256FromFelts 1 0 : Int)⟩
                          ⟨(10 : Int) ^ 12, 1⟩) :=
  ⟨(get_price_spec "0xabc" 1 0 2 0 []).1,
   (get_price_spec "0xabc" 1 0 2 0 []).2 (by decide) (by decide)⟩

/-- C3: with a quote token missing from `QUOTE_TOKENS` the computation
panics at the `Option::unwrap` of the failed lookup (liquidity.rs line
137, executed before the `is_quote_token_safe` branch) rather than
returning the distinct "quote token not recognized" outcome; with a
recognized quote token the starting market cap goes through
`to_significant_digits(0, RoundDown)` and a `LiquidityParams` record is
returned. -/
theorem parse_liquidity_params_unrecognized_panics :
    parseLiquidityParams "0xdead" 1000 ⟨1, 1⟩ 0 = .error .panic
    ∧ parseLiquidityParams ETHER.address 1000 ⟨1, 1⟩ 0 = .ok ⟨true, "0"⟩ :=
  ⟨rfl, rfl⟩

/-- C4 counterexample: a 14-word response makes the decoder panic with
an out-of-bounds index (there is no `DecodeError` outcome at all), and a
24-word response decodes identically to its first 18 words, so the
trailing words of a well-formed response are never consumed. -/
theorem parse_call_result_not_schema_checked :
    parseCallResult (List.replicate 14 0) = none
    ∧ parseCallResult (List.replicate 24 0) = parseCallResult (List.replicate 18 0) :=
  ⟨by decide, by decide⟩

/-- C4 amended: the aggregate decoder reads fixed indices instead of
consuming a cursor: it panics (out-of-bounds indexing, no `DecodeError`)
exactly on buffers shorter than 15 words, reads nothing past index 17
(so the trailing call results of a well-formed response stay unread),
and only the `parse_ekubo_pool_parameters` sub-decoder consumes exactly
its five-word width through a cursor. -/
theorem parse_call_result_fixed_indices :
    (∀ cr : List Nat, parseCallResult cr = none ↔ cr.length < 15)
    ∧ (∀ (cr ext : List Nat), cr.length = 18 →
        parseCallResult (cr ++ ext) = parseCallResult cr)
    ∧ (∀ (cr : List Nat) (i : Nat), i + 5 ≤ cr.length →
        (∀ s ∈ cr, s < 2 ^ 64) →
        ∃ p, parseEkuboPoolParameters cr i = some (p, i + 5)) := by
  refine ⟨fun cr => ⟨fun h => ?_, fun hlen => ?_⟩, fun cr ext hlen => ?_,
    fun cr i hle hs => ?_⟩
  · by_contra hlen
    push_neg at hlen
    have h1 : cr[1]? = some cr[1] := List.getElem?_eq_getElem (by omega)
    have h5 : cr[5]? = some cr[5] := List.getElem?_eq_getElem (by omega)
    have h7 : cr[7]? = some cr[7] := List.getElem?_eq_getElem (by omega)
    have h12 : cr[12]? = some cr[12] := List.getElem?_eq_getElem (by omega)
    have h14 : cr[14]? = some cr[14] := List.getElem?_eq_getElem (by omega)
    simp [parseCallResult, h1, h5, h7, h12, h14] at h
  · have h14 : cr[14]? = none := by
      rw [List.getElem?_eq_none_iff]; omega
    cases h1 : cr[1]? with
    | none => simp [parseCallResult, h1]
    | some a =>
      cases h5 : cr[5]? with
      | none => simp [parseCallResult, h1, h5]
      | some b =>
        cases h7 : cr[7]? with
        | none => simp [parseCallResult, h1, h5, h7]
        | some c =>
          cases h12 : cr[12]? with
          | none => simp [parseCallResult, h1, h5, h7, h12]
          | some d => simp [parseCallResult, h1, h5, h7, h12, h14]
  · have h : ∀ i, i < 18 → (cr ++ ext)[i]? = cr[i]? := by
      intro i hi
      rw [List.getElem?_append_left (by omega)]
    simp only [parseCallResult, h 1 (by norm_num), h 5 (by norm_num),
      h 7 (by norm_num), h 9 (by norm_num), h 10 (by norm_num),
      h 12 (by norm_num), h 14 (by norm_num), h 16 (by norm_num),
      h 17 (by norm_num)]
  · have h0 : cr[i]? = some cr[i] := List.getElem?_eq_getElem (by omega)
    have h1 : cr[i+1]? = some cr[i+1] := List.getElem?_eq_getElem (by omega)
    have h2 : cr[i+2]? = some cr[i+2] := List.getElem?_eq_getElem (by omega)
    have h3 : cr[i+3]? = some cr[i+3] := List.getElem?_eq_getElem (by omega)
    have h4 : cr[i+4]? = some cr[i+4] := List.getElem?_eq_getElem (by omega)
    have hsign : cr[i+3] < 2 ^ 64 := hs _ (List.getElem_mem _)
    norm_num at hsign
    refine ⟨⟨cr[i], cr[i+1], cr[i+2], decide (cr[i+3] = 1), cr[i+4]⟩, ?_⟩
    simp [parseEkuboPoolParameters, h0, h1, h2, h3, h4, hsign]

/-- Witness for `parse_call_result_fixed_indices`: a 3-word buffer
panics, an extra word after a full 18-word buffer is ignored, and a
pool-parameter decode at cursor 2 lands on cursor 7. -/
theorem parse_call_result_fixed_indices_witness :
    (parseCallResult (List.replicate 3 0) = none ↔ (List.replicate 3 0).length < 15)
    ∧ parseCallResult (List.replicate 18 0 ++ [99]) = parseCallResult (List.replicate 18 0)
    ∧ ∃ p, parseEkuboPoolParameters (List.replicate 10 1) 2 = some (p, 2 + 5) :=
  ⟨parse_call_result_fixed_indices.1 (List.replicate 3 0),
   parse_call_result_fixed_indices.2.1 (List.replicate 18 0) [99] (by decide),
   parse_call_result_fixed_indices.2.2 (List.replicate 10 1) 2 (by decide) (by decide)⟩

/-- Helper: the block delivered by `getLast?` is one of the page's
events. -/
theorem mem_of_getLast?_eq {l : List Nat} {b : Nat} (h : l.getLast? = some b) :
    b ∈ l := by
  have hb : b ∈ l.getLast? := by rw [Option.mem_def]; exact h
  rcases List.mem_getLast?_eq_getLast hb with ⟨hne, rfl⟩
  exact List.getLast_mem hne

/-- Helper: one catch-up iteration cannot lower the watermark when the
page's events are at or above it. -/
theorem catchUpStep_wm_le (wm : Nat) (page : EventsPage)
    (h : ∀ b ∈ page.events, wm ≤ b) :
    wm ≤ (catchUpStep wm page).1.watermark := by
  unfold catchUpStep
  by_cases hc : page.events = [] ∧ page.continuationToken = none
  · rw [if_pos hc]; exact le_refl wm
  · rw [if_neg hc]
    cases hl : page.events.getLast? with
    | none =>
      cases htok : page.continuationToken <;>
        simp [CatchUpNext.watermark, hl]
    | some b =>
      have hb := h b (mem_of_getLast?_eq hl)
      cases htok : page.continuationToken <;>
        simp [CatchUpNext.watermark, hl, hb]

/-- C5 counterexample: a catch-up page whose last event's block (5) lies
below the current watermark (100) moves the watermark down to 5, and a
late background retry success for block 10 overwrites a watermark of 20;
the watermark is therefore not non-decreasing for every sequence of
fetched pages and poll results. -/
theorem watermark_can_decrease :
    (catchUpStep 100 ⟨[5], some "t"⟩).1.watermark = 5
    ∧ 5 < 100
    ∧ retryStoreOnSuccess 20 10 = 10 ∧ 10 < 20 :=
  ⟨rfl, by norm_num, rfl, by norm_num⟩

/-- C5 amended: the watermark is non-decreasing provided every fetched
page or poll only delivers events at or above the watermark current when
it is processed, and a background retry success only stores a block at
or above the current watermark; unconditionally,
`process_launch_event` never runs the aggregation call for a block at or
below the watermark read at invocation start, and its own stores never
lower the watermark. -/
theorem watermark_monotonic_under_ordered_fetches :
    ∀ (wm block : Nat) (page : EventsPage) (events : List Nat)
      (pages : List EventsPage) (ok : Bool),
      ((∀ b ∈ page.events, wm ≤ b) → wm ≤ (catchUpStep wm page).1.watermark)
      ∧ (orderedRun wm pages = true → wm ≤ runCatchUpWm wm pages)
      ∧ ((∀ b ∈ events, wm ≤ b) → wm ≤ (livePollStep wm events).1)
      ∧ (block ≤ wm → processLaunchEvent wm block ok = (wm, .skipped))
      ∧ wm ≤ (processLaunchEvent wm block ok).1
      ∧ (wm ≤ block → wm ≤ retryStoreOnSuccess wm block) := by
  have hrun : ∀ (pages : List EventsPage) (wm : Nat),
      orderedRun wm pages = true → wm ≤ runCatchUpWm wm pages := by
    intro pages
    induction pages with
    | nil => intro wm _; exact le_refl wm
    | cons p rest ih =>
      intro wm h
      rw [orderedRun, Bool.and_eq_true] at h
      obtain ⟨h1, h2⟩ := h
      have h1' : ∀ b ∈ p.events, wm ≤ b := by
        intro b hb
        have := List.all_eq_true.mp h1 b hb
        exact of_decide_eq_true this
      calc wm ≤ (catchUpStep wm p).1.watermark := catchUpStep_wm_le wm p h1'
        _ ≤ runCatchUpWm (catchUpStep wm p).1.watermark rest := ih _ h2
        _ = runCatchUpWm wm (p :: rest) := rfl
  intro wm block page events pages ok
  refine ⟨catchUpStep_wm_le wm page, hrun pages wm, ?_, ?_, ?_, ?_⟩
  · intro h
    unfold livePollStep
    cases hE : events with
    | nil => simp
    | cons e es =>
      rw [if_neg (by simp)]
      cases hl : (e :: es).getLast? with
      | none => simp at hl
      | some b =>
        have hb := h b (hE ▸ mem_of_getLast?_eq hl)
        simpa [hl] using hb
  · intro h; unfold processLaunchEvent; rw [if_pos h]
  · unfold processLaunchEvent
    by_cases h : block ≤ wm
    · rw [if_pos h]
    · rw [if_neg h]
      cases ok
      · simp
      · simp
        omega
  · intro h; exact h

/-- Witness for `watermark_monotonic_under_ordered_fetches` at watermark
10, block 7, page `([11, 12], none)`, poll events `[12]`, run
`[([11], some "a"), ([13], none)]`. -/
theorem watermark_monotonic_witness :
    ((∀ b ∈ (⟨[11, 12], none⟩ : EventsPage).events, 10 ≤ b) →
        10 ≤ (catchUpStep 10 ⟨[11, 12], none⟩).1.watermark)
    ∧ (orderedRun 10 [⟨[11], some "a"⟩, ⟨[13], none⟩] = true →
        10 ≤ runCatchUpWm 10 [⟨[11], some "a"⟩, ⟨[13], none⟩])
    ∧ ((∀ b ∈ [12], 10 ≤ b) → 10 ≤ (livePollStep 10 [12]).1)
    ∧ (7 ≤ 10 → processLaunchEvent 10 7 true = (10, .skipped))
    ∧ 10 ≤ (processLaunchEvent 10 7 true).1
    ∧ (10 ≤ 7 → 10 ≤ retryStoreOnSuccess 10 7) :=
  watermark_monotonic_under_ordered_fetches 10 7 ⟨[11, 12], none⟩ [12]
    [⟨[11], some "a"⟩, ⟨[13], none⟩] true

/-- C6: in the catch-up state, an empty page with an absent continuation
token transitions to live polling with the watermark unchanged; a
populated page (last event block `b`) invokes the handler once with the
page's events in delivery order, advances the watermark to `b`, and,
when the page returns a continuation token, loops by passing that token
into the next historical request. -/
theorem catch_up_step_transitions :
    ∀ (wm : Nat) (page : EventsPage),
      (page.events = [] ∧ page.continuationToken = none →
        catchUpStep wm page = (.toLivePoll wm, []))
      ∧ (∀ b, page.events.getLast? = some b →
          (catchUpStep wm page).2 = [page.events]
          ∧ (catchUpStep wm page).1.watermark = b
          ∧ ∀ t, page.continuationToken = some t →
              (catchUpStep wm page).1 = .nextPage b t) := by
  intro wm page
  constructor
  · rintro ⟨he, ht⟩
    simp [catchUpStep, he, ht]
  · intro b hb
    have hne : page.events ≠ [] := by
      intro he; rw [he] at hb; simp at hb
    have hcond : ¬ (page.events = [] ∧ page.continuationToken = none) :=
      fun hc => hne hc.1
    unfold catchUpStep
    rw [if_neg hcond]
    cases htok : page.continuationToken <;>
      simp [CatchUpNext.watermark, hb, hne]

/-- Witness for `catch_up_step_transitions`: the empty terminal page and
a populated page `([3, 7], some "tok")`. -/
theorem catch_up_step_transitions_witness :
    catchUpStep 42 ⟨[], none⟩ = (.toLivePoll 42, [])
    ∧ ((catchUpStep 0 ⟨[3, 7], some "tok"⟩).2 = [[3, 7]]
        ∧ (catchUpStep 0 ⟨[3, 7], some "tok"⟩).1.watermark = 7
        ∧ ∀ t, (⟨[3, 7], some "tok"⟩ : EventsPage).continuationToken = some t →
            (catchUpStep 0 ⟨[3, 7], some "tok"⟩).1 = .nextPage 7 t) :=
  ⟨(catch_up_step_transitions 42 ⟨[], none⟩).1 ⟨rfl, rfl⟩,
   (catch_up_step_transitions 0 ⟨[3, 7], some "tok"⟩).2 7 (by decide)⟩

/-- C7 counterexample: the field element 128 packs the single byte
`0x80`, which is not printable ASCII, and decoding it with
`parse_and_validate_short_string` raises the propagated
`NonAsciiCharacter` parse error instead of returning a fallback
value. -/
theorem short_string_non_ascii_raises :
    parseAndValidateShortString 128 = .error .nonAsciiCharacter
    ∧ (feltBytes 128).any (fun b => decide (127 < b)) = true :=
  ⟨rfl, by decide⟩

/-- C7 amended: the defined deterministic fallbacks sit one level apart
from where the claim puts them: when the packed bytes parse to an ASCII
string containing a non-printable character,
`parse_and_validate_short_string` returns the felt's decimal string
without raising; but when the underlying short-string parse fails (a
byte ≥ 0x80, an interior NUL, or a nonzero top byte) it propagates that
error, and it is the aggregation call site that deterministically maps
the error to the literal `<invalid>` marker. -/
theorem short_string_fallback_spec :
    ∀ f : Nat,
      (∀ s, parseCairoShortString f = .ok s →
        s.toList.all (fun c => isAsciiGraphic c || isAsciiWhitespace c) = false →
        parseAndValidateShortString f = .ok (Nat.repr f))
      ∧ (∀ e, parseAndValidateShortString f = .error e ↔
          parseCairoShortString f = .error e)
      ∧ (∀ e, parseCairoShortString f = .error e →
          symbolResponse f = "Symbol: <invalid>") := by
  intro f
  refine ⟨fun s hok hall => ?_, fun e => ?_, fun e he => ?_⟩
  · unfold parseAndValidateShortString
    rw [hok]
    show (if (s.toList.all fun c => isAsciiGraphic c || isAsciiWhitespace c) = true
        then Except.ok s else Except.ok (Nat.repr f)) = Except.ok (Nat.repr f)
    rw [if_neg (by rw [hall]; exact Bool.false_ne_true)]
  · unfold parseAndValidateShortString
    cases hp : parseCairoShortString f with
    | error e' => exact Iff.rfl
    | ok s =>
      constructor
      · intro h
        exfalso
        have h' : (if (s.toList.all fun c => isAsciiGraphic c || isAsciiWhitespace c) = true
            then Except.ok s else Except.ok (Nat.repr f)) =
            (Except.error e : Except ShortStringErr String) := h
        by_cases hc :
            (s.toList.all fun c => isAsciiGraphic c || isAsciiWhitespace c) = true
        · rw [if_pos hc] at h'; exact Except.noConfusion h'
        · rw [if_neg hc] at h'; exact Except.noConfusion h'
      · intro h; exact Except.noConfusion h
  · unfold symbolResponse parseAndValidateShortString
    rw [he]

/-- Witness for `short_string_fallback_spec`: the felt 1 (byte `0x01`,
ASCII but not printable) falls back to its decimal string `"1"`, and the
felt 128 decodes at the call site to the `<invalid>` marker. -/
theorem short_string_fallback_spec_witness :
    parseAndValidateShortString 1 = .ok (Nat.repr 1)
    ∧ symbolResponse 128 = "Symbol: <invalid>" :=
  ⟨(short_string_fallback_spec 1).1 (String.mk [Char.ofNat 1]) (by rfl) (by rfl),
   (short_string_fallback_spec 128).2.2 .nonAsciiCharacter (by rfl)⟩

end StarkSnipe
